import Mathlib

/-!
Verification of the hyphalbase embeddings server pipeline.

Shallow embedding of `src/crates/embeddings-server/src/main.rs`.

Modelling choices:
* `f32` values are modelled as real numbers (`ℝ`); the structural claims
  (lengths, padding, pass-through, determinism) do not depend on rounding,
  and the numerical claim about the Euclidean norm is stated for the
  idealised real-valued computation.
* The thread-local RNG of the degenerate branch is modelled by a function
  `draws : ℕ → ℝ`, where `draws i` is the value accepted by the
  `while val == 0.0` retry loop for component `i`; the loop's postcondition
  (the accepted value is nonzero, drawn from `[-1.0, 1.0)`) becomes a
  hypothesis where a claim needs it.
* The fastembed `TextEmbedding` model is an abstract type; its construction
  (`TextEmbedding::try_new`) and its `embed` method are passed in as a
  `Except`-valued result and function, mirroring the `Result` values the
  source unwraps with `.expect`.
* A Rust panic (`.expect`, out-of-bounds indexing) is modelled by the
  `HandlerResult.panic` constructor; the successful `ResponseJson` value by
  `HandlerResult.ok`.
-/

/-- Models `let target_dimension = 768;` in `embeddings_create` (main.rs line 76). -/
def target_dimension : ℕ := 768

/-- The request body type decoded by the axum `Json` extractor:
`openai_api_rust::embeddings::EmbeddingsBody` with fields
`model : String`, `input : Vec<String>`, `user : Option<String>`. -/
structure EmbeddingsBody where
  model : String
  input : List String
  user : Option String
deriving DecidableEq

/-- One entry of the `"data"` array of the response JSON built at
main.rs lines 95-101: `{"object": "embedding", "index": 0, "embedding": ...}`. -/
structure DataEntry where
  object : String
  index : ℕ
  embedding : List ℝ

/-- The `"usage"` object of the response JSON (main.rs lines 103-106). -/
structure Usage where
  prompt_tokens : ℕ
  total_tokens : ℕ
deriving DecidableEq

/-- The response JSON shape built by `serde_json::json!` at main.rs
lines 93-107. -/
structure EmbeddingsResponse where
  object : String
  data : List DataEntry
  model : String
  usage : Usage

/-- The `random_embedding` vector before normalization (main.rs lines 54-62): 768
components, component `i` being the value the retry loop accepted from the
RNG stream `draws`. -/
def random_embedding (draws : ℕ → ℝ) : List ℝ :=
  (List.range 768).map draws

/-- The degenerate (`all_zeros`) branch of the `final_embedding` block
(main.rs lines 48-70): generate `random_embedding`, compute
`norm = sqrt(Σ xᵢ²)` and divide every component by it. -/
noncomputable def degenerate_fallback (draws : ℕ → ℝ) : List ℝ :=
  let re := random_embedding draws
  let norm := Real.sqrt ((re.map (fun x => x * x)).sum)
  re.map (fun x => x / norm)

/-- The non-degenerate branch (main.rs lines 72-83): clone the raw vector
and, when it is shorter than `target_dimension`, extend it with
`padding_needed` zeros; otherwise leave it unchanged. -/
def padded_embedding (raw : List ℝ) : List ℝ :=
  if raw.length < target_dimension then
    raw ++ List.replicate (target_dimension - raw.length) 0
  else
    raw

open Classical in
/-- The full `final_embedding` block (main.rs lines 45-85): classify the
raw vector with `all_zeros = iter().all(|&x| x == 0.0)` and dispatch to the
degenerate fallback or the padding branch. -/
noncomputable def final_embedding (draws : ℕ → ℝ) (raw : List ℝ) : List ℝ :=
  if ∀ x ∈ raw, x = 0 then degenerate_fallback draws else padded_embedding raw

/-- Outcome of running the `embeddings_create` handler body: either a Rust
panic (from `.expect` or from indexing `embeddings[0]` on an empty batch) or
the 200 JSON response. -/
inductive HandlerResult where
  | panic (msg : String)
  | ok (resp : EmbeddingsResponse)

/-- The `embeddings_create` handler (main.rs lines 20-109).
`try_new` is the result of `TextEmbedding::try_new(...)` (unwrapped with
`.expect("Failed to initialize model")`), `embed` the model's `embed`
method (unwrapped with `.expect("failed to embed document")`). An empty
embeddings batch panics when `embeddings[0]` is first indexed (main.rs
line 40). On success the handler returns the response JSON with a single
`data` entry whose `index` is the literal `0` and whose embedding is the
`final_embedding` of `embeddings[0]`. -/
noncomputable def embeddings_create {M : Type}
    (try_new : Except String M)
    (embed : M → List String → Except String (List (List ℝ)))
    (draws : ℕ → ℝ)
    (payload : EmbeddingsBody) : HandlerResult :=
  match try_new with
  | .error _ => .panic "Failed to initialize model"
  | .ok model =>
    match embed model payload.input with
    | .error _ => .panic "failed to embed document"
    | .ok [] => .panic "index out of bounds"
    | .ok (e0 :: _) =>
      .ok
        { object := "list"
          data := [{ object := "embedding", index := 0,
                     embedding := final_embedding draws e0 }]
          model := payload.model
          usage := { prompt_tokens := 0, total_tokens := 0 } }

/-- A JSON value, for modelling the request-body decoding performed by the
axum `Json<EmbeddingsBody>` extractor. -/
inductive Json where
  | null
  | bool (b : Bool)
  | num (q : ℚ)
  | str (s : String)
  | arr (elems : List Json)
  | obj (fields : List (String × Json))

/-- Decode a JSON array as `Vec<String>`: every element must be a string. -/
def decode_string_list : List Json → Option (List String)
  | [] => some []
  | .str s :: rest => (decode_string_list rest).map (fun t => s :: t)
  | _ :: _ => none

/-- The serde-derived deserializer of
`openai_api_rust::embeddings::EmbeddingsBody`, as invoked by the axum
`Json` extractor: `model` must be a string, `input` an array of strings of
any length (the derive performs no emptiness validation), `user` an
optional string. -/
def decode_embeddings_body (j : Json) : Option EmbeddingsBody :=
  match j with
  | .obj fields =>
    match fields.lookup "model", fields.lookup "input" with
    | some (.str m), some (.arr items) =>
      match decode_string_list items with
      | some inputs =>
        match fields.lookup "user" with
        | none => some { model := m, input := inputs, user := none }
        | some .null => some { model := m, input := inputs, user := none }
        | some (.str u) => some { model := m, input := inputs, user := some u }
        | some _ => none
      | none => none
    | _, _ => none
  | _ => none

/-- Outcome of a `POST /v1/embeddings` request: the axum `Json` extractor
rejects undecodable bodies with a 4xx before the handler runs; otherwise
the handler body either panics or produces the 200 response. -/
inductive HttpOutcome where
  | reject4xx
  | panic (msg : String)
  | ok200 (resp : EmbeddingsResponse)

/-- The `/v1/embeddings` route (main.rs line 114): decode the body, then
run `embeddings_create`. -/
noncomputable def post_v1_embeddings {M : Type}
    (try_new : Except String M)
    (embed : M → List String → Except String (List (List ℝ)))
    (draws : ℕ → ℝ)
    (body : Json) : HttpOutcome :=
  match decode_embeddings_body body with
  | none => .reject4xx
  | some payload =>
    match embeddings_create try_new embed draws payload with
    | .panic m => .panic m
    | .ok r => .ok200 r

/-! ## Branch lemmas for the normalizer -/

lemma final_embedding_all_zero (draws : ℕ → ℝ) (raw : List ℝ)
    (h : ∀ x ∈ raw, x = 0) :
    final_embedding draws raw = degenerate_fallback draws := by
  unfold final_embedding
  rw [if_pos h]

lemma final_embedding_not_all_zero (draws : ℕ → ℝ) (raw : List ℝ)
    (h : ∃ x ∈ raw, x ≠ 0) :
    final_embedding draws raw = padded_embedding raw := by
  unfold final_embedding
  rw [if_neg (by push_neg; exact h)]

lemma degenerate_fallback_length (draws : ℕ → ℝ) :
    (degenerate_fallback draws).length = 768 := by
  simp [degenerate_fallback, random_embedding]

lemma padded_embedding_length_of_le (raw : List ℝ) (h : raw.length ≤ 768) :
    (padded_embedding raw).length = 768 := by
  unfold padded_embedding target_dimension
  split
  · simp only [List.length_append, List.length_replicate]
    omega
  · omega

lemma padded_embedding_of_ge (raw : List ℝ) (h : 768 ≤ raw.length) :
    padded_embedding raw = raw := by
  unfold padded_embedding target_dimension
  rw [if_neg (by omega)]

/-! ## Claims about the normalization step -/

/-- C2: for every raw vector that is degenerate (all components exactly
0.0), shorter than 768, or exactly 768 components long and non-degenerate,
the `final_embedding` block produces a vector of length exactly 768. -/
theorem final_embedding_length_eq_target (draws : ℕ → ℝ) (raw : List ℝ)
    (h : (∀ x ∈ raw, x = 0) ∨ raw.length < 768 ∨
        (raw.length = 768 ∧ ∃ x ∈ raw, x ≠ 0)) :
    (final_embedding draws raw).length = 768 := by
  by_cases hz : ∀ x ∈ raw, x = 0
  · rw [final_embedding_all_zero draws raw hz]
    exact degenerate_fallback_length draws
  · have hne : ∃ x ∈ raw, x ≠ 0 := by push_neg at hz; exact hz
    rw [final_embedding_not_all_zero draws raw hne]
    apply padded_embedding_length_of_le
    rcases h with h | h | h
    · exact absurd h hz
    · omega
    · omega

theorem final_embedding_length_eq_target_witness :
    ((∀ x ∈ [(1 : ℝ)], x = 0) ∨ ([(1 : ℝ)] : List ℝ).length < 768 ∨
        (([(1 : ℝ)] : List ℝ).length = 768 ∧ ∃ x ∈ [(1 : ℝ)], x ≠ 0)) ∧
    (final_embedding (fun _ => 1) [(1 : ℝ)]).length = 768 :=
  ⟨Or.inr (Or.inl (by norm_num)),
    final_embedding_length_eq_target (fun _ => 1) [(1 : ℝ)]
      (Or.inr (Or.inl (by norm_num)))⟩

/-- C3: for every non-zero raw vector shorter than 768, the output's first
`raw.length` components equal the raw components exactly and the remaining
components (positions `raw.length` to 768) are exactly 0.0. -/
theorem final_embedding_pads_short_nonzero (draws : ℕ → ℝ) (raw : List ℝ)
    (h1 : ∃ x ∈ raw, x ≠ 0) (h2 : raw.length < 768) :
    (final_embedding draws raw).take raw.length = raw ∧
    (final_embedding draws raw).drop raw.length =
      List.replicate (768 - raw.length) 0 := by
  rw [final_embedding_not_all_zero draws raw h1]
  unfold padded_embedding target_dimension
  rw [if_pos h2]
  exact ⟨List.take_left raw _, List.drop_left raw _⟩

theorem final_embedding_pads_short_nonzero_witness :
    (∃ x ∈ [(2 : ℝ)], x ≠ 0) ∧ ([(2 : ℝ)] : List ℝ).length < 768 ∧
    (final_embedding (fun _ => 1) [(2 : ℝ)]).take 1 = [(2 : ℝ)] ∧
    (final_embedding (fun _ => 1) [(2 : ℝ)]).drop 1 = List.replicate 767 0 :=
  ⟨⟨2, by norm_num⟩, by norm_num,
    (final_embedding_pads_short_nonzero (fun _ => 1) [(2 : ℝ)]
      ⟨2, by norm_num⟩ (by norm_num)).1,
    (final_embedding_pads_short_nonzero (fun _ => 1) [(2 : ℝ)]
      ⟨2, by norm_num⟩ (by norm_num)).2⟩

/-- C5: the normalization step is the identity on every vector of length
exactly 768 that has a non-zero component, so normalizing twice equals
normalizing once on such vectors. -/
theorem final_embedding_idempotent_on_exact (draws : ℕ → ℝ) (v : List ℝ)
    (h1 : v.length = 768) (h2 : ∃ x ∈ v, x ≠ 0) :
    final_embedding draws v = v ∧
    final_embedding draws (final_embedding draws v) =
      final_embedding draws v := by
  have hfix : final_embedding draws v = v := by
    rw [final_embedding_not_all_zero draws v h2]
    exact padded_embedding_of_ge v (by omega)
  exact ⟨hfix, by rw [hfix, hfix]⟩

theorem final_embedding_idempotent_on_exact_witness :
    (List.replicate 768 (1 : ℝ)).length = 768 ∧
    (∃ x ∈ List.replicate 768 (1 : ℝ), x ≠ 0) ∧
    final_embedding (fun _ => 1) (List.replicate 768 (1 : ℝ)) =
      List.replicate 768 (1 : ℝ) :=
  ⟨List.length_replicate 768 1,
    ⟨1, List.mem_replicate.mpr ⟨by norm_num, rfl⟩, one_ne_zero⟩,
    (final_embedding_idempotent_on_exact (fun _ => 1)
      (List.replicate 768 (1 : ℝ)) (List.length_replicate 768 1)
      ⟨1, List.mem_replicate.mpr ⟨by norm_num, rfl⟩, one_ne_zero⟩).1⟩

/-- C10: the normalization step is deterministic on every non-degenerate
raw vector — its result does not depend on the RNG stream, which is
consulted only in the all-zero branch. -/
theorem final_embedding_deterministic_nonzero (draws₁ draws₂ : ℕ → ℝ)
    (raw : List ℝ) (h : ∃ x ∈ raw, x ≠ 0) :
    final_embedding draws₁ raw = final_embedding draws₂ raw := by
  rw [final_embedding_not_all_zero draws₁ raw h,
      final_embedding_not_all_zero draws₂ raw h]

theorem final_embedding_deterministic_nonzero_witness :
    (∃ x ∈ [(3 : ℝ)], x ≠ 0) ∧
    final_embedding (fun _ => 1) [(3 : ℝ)] =
      final_embedding (fun _ => 2) [(3 : ℝ)] :=
  ⟨⟨3, by norm_num⟩,
    final_embedding_deterministic_nonzero (fun _ => 1) (fun _ => 2)
      [(3 : ℝ)] ⟨3, by norm_num⟩⟩

/-! ## The degenerate fallback is unit-norm and nowhere zero -/

lemma sum_sq_map_div (l : List ℝ) (c : ℝ) :
    ((l.map (fun x => x / c)).map (fun x => x * x)).sum =
      ((l.map (fun x => x * x)).sum) / (c * c) := by
  induction l with
  | nil => simp
  | cons a t ih =>
    simp only [List.map_cons, List.sum_cons, ih]
    rw [div_mul_div_comm, div_add_div_same]

lemma degenerate_fallback_eq (draws : ℕ → ℝ) :
    degenerate_fallback draws =
      (random_embedding draws).map
        (fun x => x / Real.sqrt
          (((random_embedding draws).map (fun x => x * x)).sum)) := rfl

lemma random_embedding_sum_sq_pos (draws : ℕ → ℝ)
    (hd : ∀ i < 768, draws i ≠ 0) :
    0 < ((random_embedding draws).map (fun x => x * x)).sum := by
  have hmem : draws 0 * draws 0 ∈ (random_embedding draws).map (fun x => x * x) :=
    List.mem_map.mpr ⟨draws 0,
      List.mem_map.mpr ⟨0, List.mem_range.mpr (by norm_num), rfl⟩, rfl⟩
  have hle : draws 0 * draws 0 ≤ ((random_embedding draws).map (fun x => x * x)).sum := by
    apply List.single_le_sum
    · intro x hx
      obtain ⟨y, _, rfl⟩ := List.mem_map.mp hx
      exact mul_self_nonneg y
    · exact hmem
  have h0 : 0 < draws 0 * draws 0 := mul_self_pos.mpr (hd 0 (by norm_num))
  linarith

/-- C4: for every all-zero raw vector, the normalization step produces a
replacement of length 768 whose Euclidean norm is exactly 1 (in the
real-valued model of the floating-point computation) and none of whose
components is exactly 0.0, provided the RNG retry loop delivers nonzero
draws as it is built to. -/
theorem degenerate_input_unit_norm (draws : ℕ → ℝ) (raw : List ℝ)
    (hz : ∀ x ∈ raw, x = 0) (hd : ∀ i < 768, draws i ≠ 0) :
    (final_embedding draws raw).length = 768 ∧
    Real.sqrt (((final_embedding draws raw).map (fun x => x * x)).sum) = 1 ∧
    ∀ x ∈ final_embedding draws raw, x ≠ 0 := by
  rw [final_embedding_all_zero draws raw hz]
  have hpos := random_embedding_sum_sq_pos draws hd
  have hnonneg : 0 ≤ ((random_embedding draws).map (fun x => x * x)).sum :=
    le_of_lt hpos
  have hsq : Real.sqrt (((random_embedding draws).map (fun x => x * x)).sum) *
      Real.sqrt (((random_embedding draws).map (fun x => x * x)).sum) =
      ((random_embedding draws).map (fun x => x * x)).sum :=
    Real.mul_self_sqrt hnonneg
  have hsqrt_pos : 0 < Real.sqrt (((random_embedding draws).map (fun x => x * x)).sum) :=
    Real.sqrt_pos.mpr hpos
  refine ⟨degenerate_fallback_length draws, ?_, ?_⟩
  · rw [degenerate_fallback_eq, sum_sq_map_div, hsq,
      div_self (ne_of_gt hpos), Real.sqrt_one]
  · intro x hx
    rw [degenerate_fallback_eq] at hx
    obtain ⟨y, hy, rfl⟩ := List.mem_map.mp hx
    obtain ⟨i, hi, rfl⟩ := List.mem_map.mp hy
    exact div_ne_zero (hd i (List.mem_range.mp hi)) (ne_of_gt hsqrt_pos)

theorem degenerate_input_unit_norm_witness :
    (∀ x ∈ [(0 : ℝ)], x = 0) ∧ (∀ i < 768, ((fun _ => (1 : ℝ)) i) ≠ 0) ∧
    (final_embedding (fun _ => (1 : ℝ)) [(0 : ℝ)]).length = 768 ∧
    Real.sqrt (((final_embedding (fun _ => (1 : ℝ)) [(0 : ℝ)]).map
      (fun x => x * x)).sum) = 1 ∧
    ∀ x ∈ final_embedding (fun _ => (1 : ℝ)) [(0 : ℝ)], x ≠ 0 := by
  have hz : ∀ x ∈ [(0 : ℝ)], x = 0 := by intro x hx; simpa using hx
  have hd : ∀ i < 768, ((fun _ => (1 : ℝ)) i) ≠ 0 := fun i _ => one_ne_zero
  obtain ⟨a, b, c⟩ := degenerate_input_unit_norm (fun _ => (1 : ℝ)) [(0 : ℝ)] hz hd
  exact ⟨hz, hd, a, b, c⟩

/-! ## Pass-through for vectors of length at least 768 -/

/-- C9: for every non-degenerate raw vector of length at least 768 the
normalization step returns it unchanged — it is neither truncated nor
rejected — and when such a vector heads the provider's batch, the response
embedding is that raw vector, so its length equals the raw length. -/
theorem final_embedding_passthrough_long {M : Type} (m : M)
    (embed : M → List String → Except String (List (List ℝ)))
    (draws : ℕ → ℝ) (payload : EmbeddingsBody) (raw : List ℝ)
    (rest : List (List ℝ))
    (h1 : ∃ x ∈ raw, x ≠ 0) (h2 : 768 ≤ raw.length)
    (h3 : embed m payload.input = .ok (raw :: rest)) :
    final_embedding draws raw = raw ∧
    embeddings_create (.ok m) embed draws payload =
      .ok { object := "list"
            data := [{ object := "embedding", index := 0, embedding := raw }]
            model := payload.model
            usage := { prompt_tokens := 0, total_tokens := 0 } } := by
  have hfix : final_embedding draws raw = raw := by
    rw [final_embedding_not_all_zero draws raw h1]
    exact padded_embedding_of_ge raw h2
  refine ⟨hfix, ?_⟩
  unfold embeddings_create
  simp only [h3, hfix]

theorem final_embedding_passthrough_long_witness :
    (∃ x ∈ List.replicate 769 (1 : ℝ), x ≠ 0) ∧
    768 ≤ (List.replicate 769 (1 : ℝ)).length ∧
    final_embedding (fun _ => 1) (List.replicate 769 (1 : ℝ)) =
      List.replicate 769 (1 : ℝ) := by
  have h1 : ∃ x ∈ List.replicate 769 (1 : ℝ), x ≠ 0 :=
    ⟨1, List.mem_replicate.mpr ⟨by norm_num, rfl⟩, one_ne_zero⟩
  have h2 : 768 ≤ (List.replicate 769 (1 : ℝ)).length := by
    rw [List.length_replicate]
    norm_num
  exact ⟨h1, h2,
    (final_embedding_passthrough_long (M := Unit) ()
      (fun _ _ => .ok [List.replicate 769 (1 : ℝ)]) (fun _ => 1)
      { model := "m", input := ["a"], user := none }
      (List.replicate 769 (1 : ℝ)) [] h1 h2 rfl).1⟩

/-! ## Handler-level facts -/

lemma embeddings_create_ok_inv {M : Type}
    (try_new : Except String M)
    (embed : M → List String → Except String (List (List ℝ)))
    (draws : ℕ → ℝ) (payload : EmbeddingsBody) (resp : EmbeddingsResponse)
    (h : embeddings_create try_new embed draws payload = .ok resp) :
    ∃ m e0 rest, try_new = .ok m ∧
      embed m payload.input = .ok (e0 :: rest) ∧
      resp = { object := "list"
               data := [{ object := "embedding", index := 0,
                          embedding := final_embedding draws e0 }]
               model := payload.model
               usage := { prompt_tokens := 0, total_tokens := 0 } } := by
  unfold embeddings_create at h
  split at h
  · injection h
  · split at h
    · injection h
    · injection h
    · rename_i m x e0 rest heq_embed
      injection h with h'
      exact ⟨m, e0, rest, rfl, heq_embed, h'.symm⟩

lemma final_embedding_one :
    final_embedding (fun _ => (1 : ℝ)) [(1 : ℝ)] =
      (1 : ℝ) :: List.replicate 767 0 := by
  rw [final_embedding_not_all_zero _ _ ⟨1, List.mem_singleton.mpr rfl, one_ne_zero⟩]
  unfold padded_embedding target_dimension
  rw [if_pos (by norm_num)]
  norm_num

/-- C8: every successful response has envelope `object = "list"`, every
data entry has `object = "embedding"`, the `model` field echoes the
request's model string verbatim (no validation of the model name), and
`usage` is exactly `{prompt_tokens: 0, total_tokens: 0}`. -/
theorem response_envelope_fields {M : Type}
    (try_new : Except String M)
    (embed : M → List String → Except String (List (List ℝ)))
    (draws : ℕ → ℝ) (payload : EmbeddingsBody) (resp : EmbeddingsResponse)
    (h : embeddings_create try_new embed draws payload = .ok resp) :
    resp.object = "list" ∧ (∀ e ∈ resp.data, e.object = "embedding") ∧
    resp.model = payload.model ∧
    resp.usage = { prompt_tokens := 0, total_tokens := 0 } := by
  obtain ⟨m, e0, rest, -, -, rfl⟩ :=
    embeddings_create_ok_inv try_new embed draws payload resp h
  refine ⟨rfl, ?_, rfl, rfl⟩
  intro e he
  rw [List.mem_singleton] at he
  subst he
  rfl

theorem response_envelope_fields_witness :
    (embeddings_create (M := Unit) (.ok ())
        (fun _ l => .ok (l.map (fun _ => [(1 : ℝ)]))) (fun _ => 1)
        { model := "test-model", input := ["a"], user := none } =
      .ok { object := "list"
            data := [{ object := "embedding", index := 0,
                       embedding := (1 : ℝ) :: List.replicate 767 0 }]
            model := "test-model"
            usage := { prompt_tokens := 0, total_tokens := 0 } }) ∧
    ({ object := "list"
       data := [{ object := "embedding", index := 0,
                  embedding := (1 : ℝ) :: List.replicate 767 0 }]
       model := "test-model"
       usage := { prompt_tokens := 0, total_tokens := 0 } } :
        EmbeddingsResponse).model =
      ({ model := "test-model", input := ["a"], user := none } :
        EmbeddingsBody).model := by
  have h : embeddings_create (M := Unit) (.ok ())
      (fun _ l => .ok (l.map (fun _ => [(1 : ℝ)]))) (fun _ => 1)
      { model := "test-model", input := ["a"], user := none } =
      .ok { object := "list"
            data := [{ object := "embedding", index := 0,
                       embedding := (1 : ℝ) :: List.replicate 767 0 }]
            model := "test-model"
            usage := { prompt_tokens := 0, total_tokens := 0 } } := by
    show HandlerResult.ok
        { object := "list"
          data := [{ object := "embedding", index := 0,
                     embedding := final_embedding (fun _ => (1 : ℝ)) [(1 : ℝ)] }]
          model := "test-model"
          usage := { prompt_tokens := 0, total_tokens := 0 } } = _
    rw [final_embedding_one]
  exact ⟨h, (response_envelope_fields _ _ _ _ _ h).2.2.1⟩

/-- C1 (counterexample): a well-formed request with an input batch of size
2 yields a response whose `data` array has length 1, not 2 — the handler
hardcodes a single `data` entry for `embeddings[0]`. -/
theorem data_length_ne_batch_size_cex :
    embeddings_create (M := Unit) (.ok ())
        (fun _ l => .ok (l.map (fun _ => [(1 : ℝ)]))) (fun _ => 1)
        { model := "m", input := ["a", "b"], user := none } =
      .ok { object := "list"
            data := [{ object := "embedding", index := 0,
                       embedding := (1 : ℝ) :: List.replicate 767 0 }]
            model := "m"
            usage := { prompt_tokens := 0, total_tokens := 0 } } ∧
    (({ model := "m", input := ["a", "b"], user := none } :
        EmbeddingsBody).input.length = 2 ∧
     ([{ object := "embedding", index := 0,
         embedding := (1 : ℝ) :: List.replicate 767 0 }] :
        List DataEntry).length = 1) := by
  refine ⟨?_, rfl, rfl⟩
  show HandlerResult.ok
      { object := "list"
        data := [{ object := "embedding", index := 0,
                   embedding := final_embedding (fun _ => (1 : ℝ)) [(1 : ℝ)] }]
        model := "m"
        usage := { prompt_tokens := 0, total_tokens := 0 } } = _
  rw [final_embedding_one]

/-- C1 (amended): for every well-formed request on which the handler
succeeds, the response's `data` array has length exactly 1 and its single
entry has `index = 0`; only the first embedding of the batch is returned,
so the original claim holds only for batches of size 1. -/
theorem data_array_always_singleton {M : Type}
    (try_new : Except String M)
    (embed : M → List String → Except String (List (List ℝ)))
    (draws : ℕ → ℝ) (payload : EmbeddingsBody) (resp : EmbeddingsResponse)
    (h : embeddings_create try_new embed draws payload = .ok resp) :
    resp.data.length = 1 ∧ ∀ e ∈ resp.data, e.index = 0 := by
  obtain ⟨m, e0, rest, -, -, rfl⟩ :=
    embeddings_create_ok_inv try_new embed draws payload resp h
  refine ⟨rfl, ?_⟩
  intro e he
  rw [List.mem_singleton] at he
  subst he
  rfl

theorem data_array_always_singleton_witness :
    (embeddings_create (M := Unit) (.ok ())
        (fun _ l => .ok (l.map (fun _ => [(1 : ℝ)]))) (fun _ => 1)
        { model := "m", input := ["a"], user := none } =
      .ok { object := "list"
            data := [{ object := "embedding", index := 0,
                       embedding := (1 : ℝ) :: List.replicate 767 0 }]
            model := "m"
            usage := { prompt_tokens := 0, total_tokens := 0 } }) ∧
    ({ object := "list"
       data := [{ object := "embedding", index := 0,
                  embedding := (1 : ℝ) :: List.replicate 767 0 }]
       model := "m"
       usage := { prompt_tokens := 0, total_tokens := 0 } } :
        EmbeddingsResponse).data.length = 1 := by
  have h : embeddings_create (M := Unit) (.ok ())
      (fun _ l => .ok (l.map (fun _ => [(1 : ℝ)]))) (fun _ => 1)
      { model := "m", input := ["a"], user := none } =
      .ok { object := "list"
            data := [{ object := "embedding", index := 0,
                       embedding := (1 : ℝ) :: List.replicate 767 0 }]
            model := "m"
            usage := { prompt_tokens := 0, total_tokens := 0 } } := by
    show HandlerResult.ok
        { object := "list"
          data := [{ object := "embedding", index := 0,
                     embedding := final_embedding (fun _ => (1 : ℝ)) [(1 : ℝ)] }]
          model := "m"
          usage := { prompt_tokens := 0, total_tokens := 0 } } = _
    rw [final_embedding_one]
  exact ⟨h, (data_array_always_singleton _ _ _ _ _ h).1⟩

/-- C6 (counterexample): when the provider fails during inference on a
well-formed batch, the handler result is the `.expect`-panic
`"failed to embed document"`, not an HTTP error response — no error
envelope of any kind is constructed. -/
theorem inference_failure_panics_cex :
    embeddings_create (M := Unit) (.ok ())
        (fun _ _ => .error "inference failed") (fun _ => 1)
        { model := "m", input := ["a"], user := none } =
      .panic "failed to embed document" := rfl

/-- C6 (amended): for every request on which the provider fails during
inference, the handler panics via
`.expect("failed to embed document")`; it never builds a 5xx error
envelope (its only non-panic outcome is the 200 success response). The
panic is caught at the task boundary by the runtime, so the process keeps
serving, but the client receives no HTTP error envelope from the handler. -/
theorem inference_failure_panics {M : Type} (m : M)
    (embed : M → List String → Except String (List (List ℝ)))
    (draws : ℕ → ℝ) (payload : EmbeddingsBody) (err : String)
    (h : embed m payload.input = .error err) :
    embeddings_create (.ok m) embed draws payload =
      .panic "failed to embed document" := by
  unfold embeddings_create
  simp only [h]

theorem inference_failure_panics_witness :
    ((fun (_ : Unit) (_ : List String) =>
        (Except.error "boom" : Except String (List (List ℝ)))) ()
      ({ model := "m", input := ["a"], user := none } :
        EmbeddingsBody).input = Except.error "boom") ∧
    embeddings_create (M := Unit) (.ok ())
        (fun _ _ => .error "boom") (fun _ => 1)
        { model := "m", input := ["a"], user := none } =
      .panic "failed to embed document" :=
  ⟨rfl, inference_failure_panics () (fun _ _ => .error "boom") (fun _ => 1)
      { model := "m", input := ["a"], user := none } "boom" rfl⟩

/-- C7 (counterexample): the body `{"model": "m", "input": []}` is decoded
successfully by the serde deserializer (no `DecodeError`, no 4xx), the
provider is invoked on the empty batch, and the handler then panics
indexing `embeddings[0]` — the request is not rejected before the
Embedding Provider is reached. -/
theorem empty_input_not_decode_rejected_cex :
    decode_embeddings_body
        (Json.obj [("model", Json.str "m"), ("input", Json.arr [])]) =
      some { model := "m", input := [], user := none } ∧
    post_v1_embeddings (M := Unit) (.ok ())
        (fun _ l => .ok (l.map (fun _ => [(1 : ℝ)]))) (fun _ => 1)
        (Json.obj [("model", Json.str "m"), ("input", Json.arr [])]) =
      .panic "index out of bounds" :=
  ⟨rfl, rfl⟩

/-- C7 (amended): a POST whose body decodes to an empty `input` batch is
not rejected on the decode path; the handler runs, the provider is invoked
on the empty batch, and — the provider returning one embedding per input,
hence an empty batch — the handler panics indexing `embeddings[0]`. No
200 response and no 4xx rejection is produced. -/
theorem empty_input_reaches_provider_and_panics {M : Type} (m : M)
    (embed : M → List String → Except String (List (List ℝ)))
    (draws : ℕ → ℝ) (body : Json) (payload : EmbeddingsBody)
    (hdec : decode_embeddings_body body = some payload)
    (hempty : payload.input = [])
    (hembed : embed m [] = .ok []) :
    post_v1_embeddings (.ok m) embed draws body =
      .panic "index out of bounds" := by
  unfold post_v1_embeddings
  rw [hdec]
  have hrun : embeddings_create (.ok m) embed draws payload =
      .panic "index out of bounds" := by
    unfold embeddings_create
    simp only [hempty, hembed]
  simp only [hrun]

theorem empty_input_reaches_provider_and_panics_witness :
    (decode_embeddings_body
        (Json.obj [("model", Json.str "m"), ("input", Json.arr [])]) =
      some { model := "m", input := [], user := none }) ∧
    (({ model := "m", input := [], user := none } :
        EmbeddingsBody).input = ([] : List String)) ∧
    ((fun (_ : Unit) (l : List String) =>
        (Except.ok (l.map (fun _ => [(2 : ℝ)])) :
          Except String (List (List ℝ)))) () ([] : List String) =
      Except.ok []) ∧
    post_v1_embeddings (M := Unit) (.ok ())
        (fun _ l => .ok (l.map (fun _ => [(2 : ℝ)]))) (fun _ => 2)
        (Json.obj [("model", Json.str "m"), ("input", Json.arr [])]) =
      .panic "index out of bounds" :=
  ⟨rfl, rfl, rfl,
    empty_input_reaches_provider_and_panics ()
      (fun _ l => .ok (l.map (fun _ => [(2 : ℝ)]))) (fun _ => 2)
      (Json.obj [("model", Json.str "m"), ("input", Json.arr [])])
      { model := "m", input := [], user := none } rfl rfl rfl⟩
